import Mathlib

/- Verification of BretClip's annotation editor and capture selector.

   Shallow embedding of:
   - src/editor/tools.py   : ToolType, AnnotationTool (with `__post_init__`),
                             the `Annotation` dataclass (here `Annot`), and
                             AnnotationHistory (undo/redo snapshots);
   - src/editor/canvas.py  : the annotation-state effect of
                             DrawingCanvas.set_image;
   - src/capture/selector.py : find_monitor_at_point, the selection overlay's
                             pointer-event handlers and capture finishers;
   - src/capture/screen.py : ScreenCapture.capture_fullscreen over mss
                             monitor indices.

   Python `QPoint` objects are mutable and shared by reference, so an
   annotation's `points` field is modeled as a list of ids into a point
   store (`List Pt`); `list(a.points)` copies the ids, not the referents.
   Qt `QRect` follows Qt5 semantics: the two-point constructor stores both
   corners inclusively, `width = x2 - x1 + 1`, and `normalized()` swaps a
   corner pair only when `x2 < x1 - 1` (resp. `y2 < y1 - 1`). -/

namespace BretClip

/-- A 2-D integer point: the value of a Qt `QPoint`. -/
structure Pt where
  x : Int
  y : Int
deriving DecidableEq

/-- An RGBA colour value: the value of a Qt `QColor`.  `QColor(r, g, b)`
has alpha 255; `QColor(other)` copies the value. -/
structure QColorV where
  r : Nat
  g : Nat
  b : Nat
  a : Nat
deriving DecidableEq

/-- The default red `QColor(255, 0, 0)` of `AnnotationTool.__post_init__`. -/
def QColorV.red : QColorV := ⟨255, 0, 0, 255⟩

/-- The default yellow `QColor(255, 255, 0)` substituted for highlighters. -/
def QColorV.yellow : QColorV := ⟨255, 255, 0, 255⟩

/-- The `ToolType` enum of src/editor/tools.py. -/
inductive ToolType where
  | SELECT
  | PEN
  | HIGHLIGHTER
  | RECTANGLE
  | CIRCLE
  | ARROW
  | TEXT
  | ERASER
deriving DecidableEq

/-- The `AnnotationTool` dataclass after `__post_init__` has run: `color`
is never `None` at rest.  Opacity is an exact rational standing for the
Python float constants (1.0, 0.4). -/
structure AnnotationTool where
  tool_type : ToolType
  color : QColorV
  size : Int
  opacity : Rat
deriving DecidableEq

/-- Constructing an `AnnotationTool(tool_type, color, size, opacity)`:
the dataclass constructor immediately followed by `__post_init__`
(src/editor/tools.py lines 30-39).  `color = none` models passing `None`
(or omitting the argument). -/
def mkAnnotationTool (tool_type : ToolType) (color : Option QColorV)
    (size : Int) (opacity : Rat) : AnnotationTool :=
  let c := color.getD QColorV.red
  if tool_type = ToolType.HIGHLIGHTER then
    ⟨tool_type, if c = QColorV.red then QColorV.yellow else c, 20, mkRat 2 5⟩
  else
    ⟨tool_type, c, size, opacity⟩

/-- The `Annotation` dataclass: `points` holds ids of mutable `QPoint`
objects living in an ambient point store, mirroring Python reference
semantics; `text` is the optional text payload. -/
structure Annot where
  tool : AnnotationTool
  points : List Nat
  text : String
deriving DecidableEq

/-- Dereference an annotation's point ids in a store, yielding the point
values the annotation currently denotes. -/
def renderAnnot (store : List Pt) (a : Annot) : List Pt :=
  a.points.map fun i => store.getD i ⟨0, 0⟩

/-- Dereference every annotation of a working list. -/
def renderState (store : List Pt) (anns : List Annot) : List (List Pt) :=
  anns.map (renderAnnot store)

/-- The copy made by `AnnotationHistory.add_state` (lines 63-73): each
annotation is rebuilt through the `AnnotationTool` constructor (running
`__post_init__` again) with a value copy `QColor(a.tool.color)` of the
colour, and `points=list(a.points)` — a fresh list holding the SAME
point ids (the `QPoint` objects are shared, not copied). -/
def copyState (anns : List Annot) : List Annot :=
  anns.map fun a =>
    ⟨mkAnnotationTool a.tool.tool_type (some a.tool.color) a.tool.size a.tool.opacity,
     a.points, a.text⟩

/-- The `AnnotationHistory` class state. -/
structure AnnotationHistory where
  history : List (List Annot)
  current_index : Nat
  max_history : Nat
deriving DecidableEq

/-- `AnnotationHistory(max_history)`: one empty snapshot, cursor 0. -/
def mkAnnotationHistory (max_history : Nat) : AnnotationHistory :=
  ⟨[[]], 0, max_history⟩

/-- A freshly constructed `AnnotationHistory()` with the default cap 50. -/
def initHistory : AnnotationHistory := mkAnnotationHistory 50

/-- Python list slice `l[-k:]`: the last `k` elements for `k ≥ 1`, the
whole list for `k = 0`. -/
def pyTail (k : Nat) (l : List α) : List α :=
  if k = 0 then l else l.drop (l.length - k)

/-- `AnnotationHistory.add_state(annotations)` (lines 58-81):
`history = history[:current_index+1]`, append the copied state,
`current_index += 1`; then if `len(history) > max_history`, keep
`history[-max_history:]` and set `current_index = len(history) - 1`. -/
def AnnotationHistory.add_state (h : AnnotationHistory) (anns : List Annot) :
    AnnotationHistory :=
  let kept := h.history.take (h.current_index + 1)
  let grown := kept ++ [copyState anns]
  if grown.length > h.max_history then
    let trimmed := pyTail h.max_history grown
    ⟨trimmed, trimmed.length - 1, h.max_history⟩
  else
    ⟨grown, h.current_index + 1, h.max_history⟩

/-- `AnnotationHistory.undo()` (lines 83-88): when `current_index > 0`,
decrement the cursor and return the snapshot now under it; otherwise
return `None` and leave the state unchanged. -/
def AnnotationHistory.undo (h : AnnotationHistory) :
    Option (List Annot) × AnnotationHistory :=
  if 0 < h.current_index then
    (h.history[h.current_index - 1]?, ⟨h.history, h.current_index - 1, h.max_history⟩)
  else
    (none, h)

/-- `AnnotationHistory.redo()` (lines 90-95): when
`current_index < len(history) - 1` (over Python ints, equivalently
`current_index + 1 < len(history)`), increment the cursor and return the
snapshot now under it; otherwise return `None` unchanged. -/
def AnnotationHistory.redo (h : AnnotationHistory) :
    Option (List Annot) × AnnotationHistory :=
  if h.current_index + 1 < h.history.length then
    (h.history[h.current_index + 1]?, ⟨h.history, h.current_index + 1, h.max_history⟩)
  else
    (none, h)

/-- `AnnotationHistory.can_undo()`: `current_index > 0`. -/
def AnnotationHistory.can_undo (h : AnnotationHistory) : Bool :=
  decide (0 < h.current_index)

/-- `AnnotationHistory.can_redo()`: `current_index < len(history) - 1`
over Python ints, equivalently `current_index + 1 < len(history)`. -/
def AnnotationHistory.can_redo (h : AnnotationHistory) : Bool :=
  decide (h.current_index + 1 < h.history.length)

/-- `AnnotationHistory.clear()` (lines 103-106). -/
def AnnotationHistory.clear (h : AnnotationHistory) : AnnotationHistory :=
  ⟨[[]], 0, h.max_history⟩

/-- One user-level operation on an `AnnotationHistory` (return values of
`undo`/`redo` are dropped; only the state evolution matters here). -/
inductive HistOp where
  | push (anns : List Annot)
  | stepUndo
  | stepRedo
  | stepClear

/-- Apply one operation to a history state. -/
def applyOp (h : AnnotationHistory) : HistOp → AnnotationHistory
  | HistOp.push anns => h.add_state anns
  | HistOp.stepUndo => h.undo.2
  | HistOp.stepRedo => h.redo.2
  | HistOp.stepClear => h.clear

/-- Run a sequence of operations on a freshly constructed history. -/
def runOps (ops : List HistOp) : AnnotationHistory :=
  ops.foldl applyOp initHistory

/-- The drawing-canvas state relevant to annotations: the working list and
the undo history (src/editor/canvas.py lines 32-34); pixel data is not
modeled. -/
structure DrawingCanvas where
  annotations : List Annot
  history : AnnotationHistory
deriving DecidableEq

/-- The annotation-state effect of `DrawingCanvas.set_image` (lines 60-62):
`self.annotations = []` and `self.history.clear()`.  The image conversion
and view-fitting parts touch no annotation state. -/
def DrawingCanvas.set_image (c : DrawingCanvas) : DrawingCanvas :=
  ⟨[], c.history.clear⟩

/-- A Qt5 `QRect` value: both corners stored inclusively. -/
structure QRectV where
  x1 : Int
  y1 : Int
  x2 : Int
  y2 : Int
deriving DecidableEq

/-- `QRect(topLeft, bottomRight)`. -/
def QRectV.fromPoints (tl br : Pt) : QRectV :=
  ⟨tl.x, tl.y, br.x, br.y⟩

/-- `QRect.width()`: `x2 - x1 + 1` (Qt5 inclusive-corner convention). -/
def QRectV.width (r : QRectV) : Int := r.x2 - r.x1 + 1

/-- `QRect.height()`: `y2 - y1 + 1`. -/
def QRectV.height (r : QRectV) : Int := r.y2 - r.y1 + 1

/-- `QRect.x()`: the left edge `x1`. -/
def QRectV.x (r : QRectV) : Int := r.x1

/-- `QRect.y()`: the top edge `y1`. -/
def QRectV.y (r : QRectV) : Int := r.y1

/-- `QRect.normalized()` (Qt5 qrect.cpp): swap the x corners only when
`x2 < x1 - 1`, and the y corners only when `y2 < y1 - 1`. -/
def QRectV.normalized (r : QRectV) : QRectV :=
  let xs := if r.x2 < r.x1 - 1 then (r.x2, r.x1) else (r.x1, r.x2)
  let ys := if r.y2 < r.y1 - 1 then (r.y2, r.y1) else (r.y1, r.y2)
  ⟨xs.1, ys.1, xs.2, ys.2⟩

/-- `QPolygon.boundingRect()`: the rectangle from the componentwise min
corner to the componentwise max corner (a Qt null rect for no points). -/
def polygonBoundingRect : List Pt → QRectV
  | [] => ⟨0, 0, -1, -1⟩
  | p :: ps =>
    ⟨ps.foldl (fun acc q => min acc q.x) p.x,
     ps.foldl (fun acc q => min acc q.y) p.y,
     ps.foldl (fun acc q => max acc q.x) p.x,
     ps.foldl (fun acc q => max acc q.y) p.y⟩

/-- The `CaptureMode` enum of src/capture/modes.py. -/
inductive CaptureMode where
  | RECTANGULAR
  | FREEFORM
  | WINDOW
  | FULLSCREEN
deriving DecidableEq

/-- A capture request issued by the overlay on completion.  `region`
carries the screen-coordinate origin and size handed to
`ScreenCapture.capture_region`; `masked` marks the freeform variant that
additionally applies the polygon alpha mask to the grabbed region. -/
inductive CaptureReq where
  | region (x y w h : Int)
  | masked (x y w h : Int)
deriving DecidableEq

/-- The terminal outcome of a selection session: `Completed` with the
capture request it issues, or `Cancelled` (which issues no capture). -/
inductive Outcome where
  | Completed (req : CaptureReq)
  | Cancelled
deriving DecidableEq

/-- `SelectionOverlay._capture_rectangular` (lines 423-447): cancel when a
press or release point is missing; normalize `QRect(start, end)`; cancel
when either dimension is under 5; otherwise complete with a region capture
at the offset-translated origin. -/
def captureRectangular (startPt endPt : Option Pt) (offx offy : Int) : Outcome :=
  match startPt, endPt with
  | some s, some e =>
    let rect := (QRectV.fromPoints s e).normalized
    if rect.width < 5 ∨ rect.height < 5 then
      Outcome.Cancelled
    else
      Outcome.Completed (CaptureReq.region (rect.x + offx) (rect.y + offy) rect.width rect.height)
  | _, _ => Outcome.Cancelled

/-- `SelectionOverlay._capture_freeform` (lines 449-494): cancel when the
path has fewer than 3 points; take the polygon's bounding rectangle;
cancel when either dimension is under 5; otherwise complete with the
masked region capture over the bounding rectangle. -/
def captureFreeform (pts : List Pt) (offx offy : Int) : Outcome :=
  if pts.length < 3 then
    Outcome.Cancelled
  else
    let rect := polygonBoundingRect pts
    if rect.width < 5 ∨ rect.height < 5 then
      Outcome.Cancelled
    else
      Outcome.Completed (CaptureReq.masked (rect.x + offx) (rect.y + offy) rect.width rect.height)

/-- The selection state of a `SelectionOverlay` relevant to rectangular and
freeform sessions (lines 147-152 and the offsets of `_setup_ui`). -/
structure SelState where
  mode : CaptureMode
  startPt : Option Pt
  endPt : Option Pt
  freeform_points : List Pt
  is_selecting : Bool
  offx : Int
  offy : Int
deriving DecidableEq

/-- The selection state right after `__init__`: no points, not selecting. -/
def initSelState (mode : CaptureMode) (offx offy : Int) : SelState :=
  ⟨mode, none, none, [], false, offx, offy⟩

/-- `mousePressEvent` with the left button (lines 368-379): record the
start point, enter selecting; freeform seeds its path with the point. -/
def mousePressEvent (st : SelState) (p : Pt) : SelState :=
  if st.mode = CaptureMode.FREEFORM then
    ⟨st.mode, some p, st.endPt, [p], true, st.offx, st.offy⟩
  else
    ⟨st.mode, some p, st.endPt, st.freeform_points, true, st.offx, st.offy⟩

/-- `mouseMoveEvent` (lines 381-392): while selecting, rectangular mode
updates the end point (and the displayed normalized rect); freeform mode
appends the raw point to the path. -/
def mouseMoveEvent (st : SelState) (p : Pt) : SelState :=
  if st.mode = CaptureMode.RECTANGULAR ∧ st.is_selecting then
    ⟨st.mode, st.startPt, some p, st.freeform_points, st.is_selecting, st.offx, st.offy⟩
  else if st.mode = CaptureMode.FREEFORM ∧ st.is_selecting then
    ⟨st.mode, st.startPt, st.endPt, st.freeform_points ++ [p], st.is_selecting, st.offx, st.offy⟩
  else
    st

/-- `mouseReleaseEvent` with the left button (lines 394-404): when
selecting, stop selecting, set the end point, and run the mode's capture
finisher; other modes decide nothing on release (`none`). -/
def mouseReleaseEvent (st : SelState) (p : Pt) : SelState × Option Outcome :=
  if st.is_selecting then
    let st' : SelState :=
      ⟨st.mode, st.startPt, some p, st.freeform_points, false, st.offx, st.offy⟩
    match st.mode with
    | CaptureMode.RECTANGULAR =>
      (st', some (captureRectangular st'.startPt st'.endPt st'.offx st'.offy))
    | CaptureMode.FREEFORM =>
      (st', some (captureFreeform st'.freeform_points st'.offx st'.offy))
    | _ => (st', none)
  else
    (st, none)

/-- Press, drag to a single move point, release there — the rectangular
scenario of the spec — returning the decided outcome. -/
def runRectScenario (press drag : Pt) (offx offy : Int) : Option Outcome :=
  let st1 := mousePressEvent (initSelState CaptureMode.RECTANGULAR offx offy) press
  let st2 := mouseMoveEvent st1 drag
  (mouseReleaseEvent st2 drag).2

/-- A monitor record as produced by `get_all_monitors` (src/capture/
selector.py lines 23-51): position, size and the derived right/bottom. -/
structure Monitor where
  left : Int
  top : Int
  width : Int
  height : Int
  right : Int
  bottom : Int
deriving DecidableEq

/-- The half-open containment test of `find_monitor_at_point` (lines
92-93): `left ≤ x < right` and `top ≤ y < bottom`. -/
def monitorContains (x y : Int) (m : Monitor) : Bool :=
  decide (m.left ≤ x ∧ x < m.right ∧ m.top ≤ y ∧ y < m.bottom)

/-- The `for mon in monitors` loop of `find_monitor_at_point`: first
monitor passing the containment test, in enumeration order. -/
def findLoop (x y : Int) : List Monitor → Option Monitor
  | [] => none
  | m :: rest => if monitorContains x y m then some m else findLoop x y rest

/-- `find_monitor_at_point(x, y)` (lines 80-95), with the enumerated
monitor list made an explicit argument: the loop's first match, else
`monitors[0] if monitors else None`. -/
def find_monitor_at_point (x y : Int) (monitors : List Monitor) : Option Monitor :=
  match findLoop x y monitors with
  | some m => some m
  | none => monitors.head?

/-- The mss screen-capture handle: `monitors[0]` is the combined virtual
screen and `monitors[i]` for `i ≥ 1` the i-th physical monitor (mss
convention, restated in the docstring of `ScreenCapture.capture_fullscreen`,
src/capture/screen.py lines 17-24). -/
structure MssState where
  monitors : List Monitor
deriving DecidableEq

/-- `ScreenCapture.capture_fullscreen(monitor)` (lines 17-28): grab
`sct.monitors[monitor]`.  The captured image is modeled by the grabbed
monitor bounds; an out-of-range index (a Python `IndexError`) is `none`. -/
def capture_fullscreen (sct : MssState) (monitor : Nat) : Option Monitor :=
  sct.monitors[monitor]?

/-- `SelectionOverlay._capture_fullscreen` (lines 247-259): default to mss
index 1 when no target monitor index was given, else the 0-based target
index plus 1, then call `capture_fullscreen`. -/
def overlayCaptureFullscreen (sct : MssState) (target_monitor_index : Option Nat) :
    Option Monitor :=
  let monitor_idx : Nat :=
    match target_monitor_index with
    | none => 1
    | some t => t + 1
  capture_fullscreen sct monitor_idx

/-- A sample pen annotation over point id 0 (concrete test data). -/
def sampleA : Annot := ⟨mkAnnotationTool ToolType.PEN none 3 (mkRat 1 1), [0], ""⟩

/-- A sample pen annotation over point id 1 (concrete test data). -/
def sampleB : Annot := ⟨mkAnnotationTool ToolType.PEN none 3 (mkRat 1 1), [1], ""⟩

/-- A sample pen annotation over point id 2 (concrete test data). -/
def sampleC : Annot := ⟨mkAnnotationTool ToolType.PEN none 3 (mkRat 1 1), [2], ""⟩

/-- A sample monitor at the origin, 10 by 10 (concrete test data). -/
def monA : Monitor := ⟨0, 0, 10, 10, 10, 10⟩

/-- A sample monitor to the right of `monA` (concrete test data). -/
def monB : Monitor := ⟨10, 0, 10, 10, 20, 10⟩

/-- Sample combined virtual bounds of two 1920 by 1080 monitors. -/
def virtEx : Monitor := ⟨0, 0, 3840, 1080, 3840, 1080⟩

/-- Sample first physical monitor (concrete test data). -/
def mon1Ex : Monitor := ⟨0, 0, 1920, 1080, 1920, 1080⟩

/-- Sample second physical monitor (concrete test data). -/
def mon2Ex : Monitor := ⟨1920, 0, 1920, 1080, 3840, 1080⟩

/-- After any `add_state`, the cursor sits on the last snapshot: the new
history length is at most `current_index + 1`. -/
lemma add_state_cursor_last (h : AnnotationHistory) (anns : List Annot) :
    (h.add_state anns).history.length ≤ (h.add_state anns).current_index + 1 := by
  simp only [AnnotationHistory.add_state]
  by_cases hc :
      (h.history.take (h.current_index + 1) ++ [copyState anns]).length > h.max_history
  · simp only [hc, if_true, pyTail]
    by_cases h0 : h.max_history = 0
    · simp only [h0, if_true]
      omega
    · simp only [h0, if_false]
      omega
  · simp only [hc, if_false]
    simp only [List.length_append, List.length_take, List.length_singleton]
    omega

/-- The structural invariant of an `AnnotationHistory` built with cap 50. -/
def HistInv (h : AnnotationHistory) : Prop :=
  h.max_history = 50 ∧ h.history.length ≤ 50 ∧ h.history ≠ [] ∧
    h.current_index < h.history.length

/-- Every operation preserves the history invariant. -/
lemma applyOp_preserves (h : AnnotationHistory) (op : HistOp)
    (hinv : HistInv h) : HistInv (applyOp h op) := by
  obtain ⟨hmax, hlen, hne, hidx⟩ := hinv
  cases op with
  | push anns =>
    simp only [applyOp, AnnotationHistory.add_state, pyTail]
    have h0 : ¬ (h.max_history = 0) := by omega
    rw [if_neg h0]
    split
    next hc =>
      simp only [List.length_append, List.length_take, List.length_singleton] at hc
      refine ⟨hmax, ?_, ?_, ?_⟩
      · simp only [List.length_drop, List.length_append, List.length_take,
          List.length_singleton]
        omega
      · have hpos :
            0 < ((h.history.take (h.current_index + 1) ++ [copyState anns]).drop
              ((h.history.take (h.current_index + 1) ++ [copyState anns]).length
                - h.max_history)).length := by
          simp only [List.length_drop, List.length_append, List.length_take,
            List.length_singleton]
          omega
        exact List.ne_nil_of_length_pos hpos
      · simp only [List.length_drop, List.length_append, List.length_take,
          List.length_singleton]
        omega
    next hc =>
      simp only [List.length_append, List.length_take, List.length_singleton] at hc
      refine ⟨hmax, ?_, ?_, ?_⟩
      · simp only [List.length_append, List.length_take, List.length_singleton]
        omega
      · simp
      · simp only [List.length_append, List.length_take, List.length_singleton]
        omega
  | stepUndo =>
    simp only [applyOp, AnnotationHistory.undo]
    split
    next hp =>
      refine ⟨hmax, hlen, hne, ?_⟩
      show h.current_index - 1 < h.history.length
      omega
    next hp =>
      exact ⟨hmax, hlen, hne, hidx⟩
  | stepRedo =>
    simp only [applyOp, AnnotationHistory.redo]
    split
    next hp =>
      refine ⟨hmax, hlen, hne, ?_⟩
      show h.current_index + 1 < h.history.length
      exact hp
    next hp =>
      exact ⟨hmax, hlen, hne, hidx⟩
  | stepClear =>
    simp only [applyOp, AnnotationHistory.clear]
    exact ⟨hmax, by simp, by simp, by simp⟩

/-- Folding any operation sequence preserves the history invariant. -/
lemma foldl_preserves (ops : List HistOp) :
    ∀ h : AnnotationHistory, HistInv h → HistInv (ops.foldl applyOp h) := by
  induction ops with
  | nil => intro h hinv; exact hinv
  | cons op rest ih =>
    intro h hinv
    exact ih (applyOp h op) (applyOp_preserves h op hinv)

/-- The loop of `find_monitor_at_point` returns exactly the first monitor,
in enumeration order, passing the containment test. -/
lemma findLoop_first (x y : Int) :
    ∀ (mons : List Monitor) (i : Nat) (m : Monitor),
      mons[i]? = some m → monitorContains x y m = true →
      (∀ (j : Nat) (m' : Monitor), j < i → mons[j]? = some m' →
        monitorContains x y m' = false) →
      findLoop x y mons = some m := by
  intro mons
  induction mons with
  | nil => intro i m hm; simp at hm
  | cons m0 rest ih =>
    intro i m hm hc hblock
    cases i with
    | zero =>
      simp at hm
      subst hm
      simp [findLoop, hc]
    | succ i' =>
      have h0 : monitorContains x y m0 = false :=
        hblock 0 m0 (Nat.succ_pos i') (by simp)
      simp only [findLoop, h0, Bool.false_eq_true, if_false]
      refine ih i' m (by simpa using hm) hc ?_
      intro j m' hj hm'
      exact hblock (j + 1) m' (by omega) (by simpa using hm')

/-- When no monitor passes the containment test, the loop finds nothing. -/
lemma findLoop_none (x y : Int) :
    ∀ mons : List Monitor,
      (∀ m ∈ mons, monitorContains x y m = false) →
      findLoop x y mons = none := by
  intro mons
  induction mons with
  | nil => intro _; rfl
  | cons m0 rest ih =>
    intro hall
    have h0 : monitorContains x y m0 = false := hall m0 (by simp)
    simp only [findLoop, h0, Bool.false_eq_true, if_false]
    exact ih fun m hm => hall m (by simp [hm])

/-- C1: for every annotation history in which `can_undo()` is true (with its
structural invariant `current_index < len(history)`), `undo()` followed
immediately by `redo()` returns exactly the snapshot that was current before
the `undo()` — a genuinely present snapshot — and the cursor ends where it
was before the `undo()`. -/
theorem undo_redo_restores (h : AnnotationHistory)
    (hcu : h.can_undo = true) (hidx : h.current_index < h.history.length) :
    (h.undo.2.redo).1 = h.history[h.current_index]? ∧
    (h.history[h.current_index]?).isSome = true ∧
    (h.undo.2.redo).2.current_index = h.current_index := by
  have hpos : 0 < h.current_index := by
    simpa [AnnotationHistory.can_undo] using hcu
  have h1 : h.undo.2 = ⟨h.history, h.current_index - 1, h.max_history⟩ := by
    simp [AnnotationHistory.undo, hpos]
  have heq : h.current_index - 1 + 1 = h.current_index := by omega
  rw [h1]
  simp only [AnnotationHistory.redo]
  rw [heq, if_pos hidx]
  refine ⟨rfl, ?_, rfl⟩
  rw [List.getElem?_eq_getElem hidx]
  rfl

/-- Witness for C1 at a concrete two-snapshot history. -/
theorem undo_redo_restores_witness :
    ((⟨[[], [sampleA]], 1, 50⟩ : AnnotationHistory).can_undo = true) ∧
    ((⟨[[], [sampleA]], 1, 50⟩ : AnnotationHistory).current_index
      < (⟨[[], [sampleA]], 1, 50⟩ : AnnotationHistory).history.length) ∧
    (((⟨[[], [sampleA]], 1, 50⟩ : AnnotationHistory).undo.2.redo).1
      = (⟨[[], [sampleA]], 1, 50⟩ : AnnotationHistory).history[1]? ∧
     ((⟨[[], [sampleA]], 1, 50⟩ : AnnotationHistory).history[1]?).isSome = true ∧
     ((⟨[[], [sampleA]], 1, 50⟩ : AnnotationHistory).undo.2.redo).2.current_index = 1) :=
  ⟨by decide, by decide,
   undo_redo_restores ⟨[[], [sampleA]], 1, 50⟩ (by decide) (by decide)⟩

/-- C2: immediately after any `add_state` the redo branch is gone —
`can_redo()` is false and `redo()` returns nothing, leaving the state
unchanged; in particular the spec scenario `push [A]`, `push [A,B]`,
`undo()` (returning `[A]`), `push [A,C]` ends with `can_redo() = false`
and `redo()` returning nothing. -/
theorem push_discards_redo :
    (∀ (h : AnnotationHistory) (anns : List Annot),
        (h.add_state anns).can_redo = false ∧
        ((h.add_state anns).redo).1 = none ∧
        ((h.add_state anns).redo).2 = h.add_state anns) ∧
    ((((initHistory.add_state [sampleA]).add_state [sampleA, sampleB]).undo).1
        = some [sampleA] ∧
     ((((initHistory.add_state [sampleA]).add_state [sampleA, sampleB]).undo.2.add_state
        [sampleA, sampleC]).can_redo) = false ∧
     ((((initHistory.add_state [sampleA]).add_state [sampleA, sampleB]).undo.2.add_state
        [sampleA, sampleC]).redo).1 = none) := by
  constructor
  · intro h anns
    have hle := add_state_cursor_last h anns
    have hguard : ¬ ((h.add_state anns).current_index + 1
        < (h.add_state anns).history.length) := by omega
    refine ⟨?_, ?_, ?_⟩
    · simp [AnnotationHistory.can_redo, hguard]
    · simp [AnnotationHistory.redo, hguard]
    · simp [AnnotationHistory.redo, hguard]
  · exact ⟨by decide, by decide, by decide⟩

/-- C3: after any sequence of push/undo/redo/clear operations on a freshly
constructed `AnnotationHistory()` (cap 50), the snapshot list has at most
50 entries, is never empty, and the cursor is a valid index into it. -/
theorem history_invariants (ops : List HistOp) :
    (runOps ops).history.length ≤ 50 ∧
    (runOps ops).history ≠ [] ∧
    (runOps ops).current_index < (runOps ops).history.length := by
  have hinit : HistInv initHistory := ⟨rfl, by decide, by decide, by decide⟩
  obtain ⟨-, hlen, hne, hidx⟩ := foldl_preserves ops initHistory hinit
  exact ⟨hlen, hne, hidx⟩

/-- C4 (code bug): `add_state` copies the points list with
`list(a.points)`, so the snapshot holds the SAME mutable `QPoint` objects
as the working annotation; mutating the shared point with id 0 in place
(store value `(0,0)` changed to `(5,0)`) changes what the stored snapshot
denotes, refuting snapshot immutability at this input. -/
theorem add_state_shares_point_objects :
    (initHistory.add_state [sampleA]).history[1]? = some (copyState [sampleA]) ∧
    (copyState [sampleA]).map (fun a => a.points) = [[0]] ∧
    renderState [⟨0, 0⟩] (copyState [sampleA]) = [[⟨0, 0⟩]] ∧
    renderState [⟨5, 0⟩] (copyState [sampleA]) = [[⟨5, 0⟩]] ∧
    renderState [⟨5, 0⟩] (copyState [sampleA])
      ≠ renderState [⟨0, 0⟩] (copyState [sampleA]) := by
  refine ⟨by decide, by decide, by decide, by decide, by decide⟩

/-- C5: `find_monitor_at_point` returns the first monitor in enumeration
order passing the half-open containment test `left ≤ x < right`,
`top ≤ y < bottom`; when no monitor passes it returns the head of the
list (the first enumerated monitor), and on the empty list it returns
nothing. -/
theorem monitor_at_first_match (mons : List Monitor) (x y : Int) :
    (∀ (i : Nat) (m : Monitor),
        mons[i]? = some m → monitorContains x y m = true →
        (∀ (j : Nat) (m' : Monitor), j < i → mons[j]? = some m' →
          monitorContains x y m' = false) →
        find_monitor_at_point x y mons = some m) ∧
    ((∀ m ∈ mons, monitorContains x y m = false) →
        find_monitor_at_point x y mons = mons.head?) ∧
    find_monitor_at_point x y [] = none := by
  refine ⟨?_, ?_, rfl⟩
  · intro i m hm hc hblock
    unfold find_monitor_at_point
    rw [findLoop_first x y mons i m hm hc hblock]
  · intro hall
    unfold find_monitor_at_point
    rw [findLoop_none x y mons hall]

/-- Witness for C5: the point (5,5) lies in `monA` only, so the first
match is returned; the point (100,100) lies in no monitor, so the first
enumerated monitor is returned. -/
theorem monitor_at_first_match_witness :
    monitorContains 5 5 monA = true ∧
    find_monitor_at_point 5 5 [monA, monB] = some monA ∧
    find_monitor_at_point 100 100 [monA, monB] = some monA := by
  refine ⟨by decide, ?_, ?_⟩
  · exact (monitor_at_first_match [monA, monB] 5 5).1 0 monA (by decide) (by decide)
      (fun j m' hj _ => absurd hj (Nat.not_lt_zero j))
  · exact (monitor_at_first_match [monA, monB] 100 100).2.1 (by decide)

/-- C6: every geometry-invalid selection is cancelled on pointer-up and
issues no capture request: a rectangular selection whose normalized width
or height is under 5 cancels; a freeform path with fewer than 3 points
cancels; a freeform path whose bounding rectangle has either dimension
under 5 cancels; and pointer-up while selecting runs exactly these
finishers. -/
theorem invalid_geometry_cancels :
    (∀ (s e : Pt) (offx offy : Int),
        ((QRectV.fromPoints s e).normalized.width < 5 ∨
          (QRectV.fromPoints s e).normalized.height < 5) →
        captureRectangular (some s) (some e) offx offy = Outcome.Cancelled) ∧
    (∀ (pts : List Pt) (offx offy : Int), pts.length < 3 →
        captureFreeform pts offx offy = Outcome.Cancelled) ∧
    (∀ (pts : List Pt) (offx offy : Int),
        ((polygonBoundingRect pts).width < 5 ∨
          (polygonBoundingRect pts).height < 5) →
        captureFreeform pts offx offy = Outcome.Cancelled) ∧
    (∀ (st : SelState) (p : Pt),
        st.is_selecting = true → st.mode = CaptureMode.RECTANGULAR →
        (mouseReleaseEvent st p).2 =
          some (captureRectangular st.startPt (some p) st.offx st.offy)) ∧
    (∀ (st : SelState) (p : Pt),
        st.is_selecting = true → st.mode = CaptureMode.FREEFORM →
        (mouseReleaseEvent st p).2 =
          some (captureFreeform st.freeform_points st.offx st.offy)) := by
  refine ⟨?_, ?_, ?_, ?_, ?_⟩
  · intro s e offx offy hsmall
    simp [captureRectangular, hsmall]
  · intro pts offx offy hshort
    simp [captureFreeform, hshort]
  · intro pts offx offy hsmall
    by_cases hshort : pts.length < 3
    · simp [captureFreeform, hshort]
    · simp [captureFreeform, hshort, hsmall]
  · intro st p hsel hmode
    simp [mouseReleaseEvent, hsel, hmode]
  · intro st p hsel hmode
    simp [mouseReleaseEvent, hsel, hmode]

/-- Witness for C6 at concrete small selections: a 3-wide rectangle drag,
a one-point freeform path, and a 2 by 2 freeform triangle all cancel. -/
theorem invalid_geometry_cancels_witness :
    ((QRectV.fromPoints ⟨0, 0⟩ ⟨2, 9⟩).normalized.width < 5 ∨
      (QRectV.fromPoints ⟨0, 0⟩ ⟨2, 9⟩).normalized.height < 5) ∧
    captureRectangular (some ⟨0, 0⟩) (some ⟨2, 9⟩) 0 0 = Outcome.Cancelled ∧
    (([⟨0, 0⟩] : List Pt).length < 3) ∧
    captureFreeform [⟨0, 0⟩] 0 0 = Outcome.Cancelled ∧
    ((polygonBoundingRect [⟨0, 0⟩, ⟨1, 0⟩, ⟨0, 1⟩]).width < 5 ∨
      (polygonBoundingRect [⟨0, 0⟩, ⟨1, 0⟩, ⟨0, 1⟩]).height < 5) ∧
    captureFreeform [⟨0, 0⟩, ⟨1, 0⟩, ⟨0, 1⟩] 0 0 = Outcome.Cancelled := by
  refine ⟨by decide, ?_, by decide, ?_, by decide, ?_⟩
  · exact invalid_geometry_cancels.1 ⟨0, 0⟩ ⟨2, 9⟩ 0 0 (by decide)
  · exact invalid_geometry_cancels.2.1 [⟨0, 0⟩] 0 0 (by decide)
  · exact invalid_geometry_cancels.2.2.1 [⟨0, 0⟩, ⟨1, 0⟩, ⟨0, 1⟩] 0 0 (by decide)

/-- C7 counterexample: pressing at (100,100), dragging to (50,50) and
releasing does NOT produce the rectangle (50,50,50,50) — under Qt5's
inclusive-corner `QRect` the normalized selection is 51 wide and 51
high, so the claimed 50 by 50 region is never requested. -/
theorem rect_scenario_counterexample :
    runRectScenario ⟨100, 100⟩ ⟨50, 50⟩ 0 0
      ≠ some (Outcome.Completed (CaptureReq.region 50 50 50 50)) := by
  decide

/-- C7 amended: the same drag produces the normalized rectangle with
origin (50,50) and width 51, height 51 (`width = right - left + 1` in
Qt5), reaching Completed; the reversed drag from (50,50) to (100,100)
yields the identical rectangle, so drag direction is irrelevant here. -/
theorem rect_scenario_qt :
    runRectScenario ⟨100, 100⟩ ⟨50, 50⟩ 0 0
      = some (Outcome.Completed (CaptureReq.region 50 50 51 51)) ∧
    runRectScenario ⟨50, 50⟩ ⟨100, 100⟩ 0 0
      = some (Outcome.Completed (CaptureReq.region 50 50 51 51)) := by
  constructor
  · decide
  · decide

/-- C8 counterexample: with no target monitor, `_capture_fullscreen`
defaults to mss index 1 — the first physical monitor — so on a concrete
two-monitor layout the capture is not over the combined virtual bounds
(mss index 0). -/
theorem fullscreen_default_counterexample :
    overlayCaptureFullscreen ⟨[virtEx, mon1Ex, mon2Ex]⟩ none ≠ some virtEx ∧
    overlayCaptureFullscreen ⟨[virtEx, mon1Ex, mon2Ex]⟩ none = some mon1Ex := by
  constructor
  · decide
  · decide

/-- C8 amended: fullscreen capture grabs the 0-based target monitor
(mss index target+1) when a target was given, and the FIRST physical
monitor (mss index 1) — not the virtual bounds at mss index 0 — when no
target monitor was given. -/
theorem fullscreen_capture_target (virt : Monitor) (mons : List Monitor) (t : Nat) :
    overlayCaptureFullscreen ⟨virt :: mons⟩ (some t) = mons[t]? ∧
    overlayCaptureFullscreen ⟨virt :: mons⟩ none = mons[0]? := by
  constructor
  · simp [overlayCaptureFullscreen, capture_fullscreen]
  · simp [overlayCaptureFullscreen, capture_fullscreen]

/-- C9: constructing a highlighter tool always forces opacity 0.4 (the
exact rational 2/5 models the Python float) and size 20, whatever was
passed, and yields the default yellow exactly when the colour after the
`None`-default step equals the default red; every other tool type keeps
the constructed colour (red substituted only for `None`), size and
opacity. -/
theorem highlighter_normalization :
    ∀ (c : Option QColorV) (s : Int) (o : Rat),
      (mkAnnotationTool ToolType.HIGHLIGHTER c s o).opacity = mkRat 2 5 ∧
      (mkAnnotationTool ToolType.HIGHLIGHTER c s o).size = 20 ∧
      (mkAnnotationTool ToolType.HIGHLIGHTER c s o).color =
        (if c.getD QColorV.red = QColorV.red then QColorV.yellow
         else c.getD QColorV.red) ∧
      ∀ t : ToolType,
        mkAnnotationTool t c s o =
          if t = ToolType.HIGHLIGHTER then
            ⟨t,
             if c.getD QColorV.red = QColorV.red then QColorV.yellow
             else c.getD QColorV.red,
             20, mkRat 2 5⟩
          else ⟨t, c.getD QColorV.red, s, o⟩ := by
  intro c s o
  refine ⟨?_, ?_, ?_, ?_⟩
  · simp [mkAnnotationTool]
  · simp [mkAnnotationTool]
  · simp [mkAnnotationTool]
  · intro t
    by_cases ht : t = ToolType.HIGHLIGHTER
    · simp [mkAnnotationTool, ht]
    · simp [mkAnnotationTool, ht]

/-- C10: after `set_image` the working annotation list is empty and the
history is the single empty snapshot with cursor 0, so neither undo nor
redo is available — the previous image's markup and history are gone. -/
theorem set_image_resets (c : DrawingCanvas) :
    c.set_image.annotations = [] ∧
    c.set_image.history.history = [[]] ∧
    c.set_image.history.current_index = 0 ∧
    c.set_image.history.can_undo = false ∧
    c.set_image.history.can_redo = false := by
  refine ⟨rfl, rfl, rfl, ?_, ?_⟩
  · simp [DrawingCanvas.set_image, AnnotationHistory.clear, AnnotationHistory.can_undo]
  · simp [DrawingCanvas.set_image, AnnotationHistory.clear, AnnotationHistory.can_redo]

end BretClip
